import Mathlib

/-
Verification of the comment-frame cleanup policy of `fix_comments.py`
(mako-sync-ai repository).

The script manipulates the ID3v2 tag set of an MP3 file through the
mutagen library.  We embed the tag set shallowly as an association list
from composite frame keys (strings such as "COMM:Songs-DB_Custom1:XXX")
to frames.  A mutagen `ID3` object is a dictionary, so keys are unique;
where a proof needs that fact it takes it as an explicit `Nodup`
hypothesis.  Frame attributes are read defensively in the source
(`value.desc if hasattr(value, 'desc') else ''`), which we model with
`Option` fields and accessor functions providing the same defaults.
-/

namespace FixComments

/-- A mutagen frame as the script reads it: the `desc`, `lang` and `text`
attributes may each be absent (`hasattr` checks in the source), and `text`
is a possibly empty list of strings. -/
structure Frame where
  desc : Option String
  lang : Option String
  text : Option (List String)
deriving DecidableEq, Repr

/-- The tag set of one file: mutagen's mapping from composite keys to
frames, in iteration order. -/
abbrev TagSet : Type := List (String × Frame)

/-- Reads `value.desc if hasattr(value, 'desc') else ''` (line 41 of the
source). -/
def descOf (f : Frame) : String := f.desc.getD ""

/-- Reads `value.lang if hasattr(value, 'lang') else ''` (line 42 of the
source). -/
def langOf (f : Frame) : String := f.lang.getD ""

/-- Reads `value.text[0] if hasattr(value, 'text') and value.text else ''`
(line 43 of the source). -/
def textOf (f : Frame) : String :=
  match f.text with
  | some (t :: _) => t
  | _ => ""

/-- The key test `key.startswith('COMM')` used by every loop of the
script: whether the character sequence of the key begins with the four
characters COMM.  Python string prefix testing is embedded on the
underlying character list of the Lean string. -/
def startsWithCOMM (k : String) : Bool := List.isPrefixOf "COMM".data k.data

/-- The classification every COMM frame receives in the main loop of
`fix_comment_fields` (lines 45-68): keep the `Songs-DB_Custom1` frame,
mark the two problematic variants for removal, keep everything else. -/
inductive CommClass where
  | preserve
  | remove
  | preserveOther
deriving DecidableEq, Repr

/-- The branch structure of the loop body of `fix_comment_fields`
(lines 45-68 of `fix_comments.py`), as a function of the frame. -/
def classifyComm (f : Frame) : CommClass :=
  if descOf f = "Songs-DB_Custom1" then
    CommClass.preserve
  else if descOf f = "ID3v1 Comment" ∧ langOf f = "eng" then
    CommClass.remove
  else if descOf f = "" ∧ langOf f = "XXX" then
    CommClass.remove
  else
    CommClass.preserveOther

/-- An entry of the tag set lands on the `to_remove` list exactly when its
key has the COMM type and the loop classifies its frame for removal. -/
def removable (kv : String × Frame) : Bool :=
  startsWithCOMM kv.1 && decide (classifyComm kv.2 = CommClass.remove)

/-- The `to_remove` list built by the loop at lines 39-68: the keys of the
COMM entries matching one of the two removal rules, in iteration order. -/
def toRemove (tags : TagSet) : List String :=
  (List.filter removable tags).map Prod.fst

/-- The `custom1_value` variable: the text of the last `Songs-DB_Custom1`
COMM frame seen by the loop, if any. -/
def custom1Value (tags : TagSet) : Option String :=
  List.foldl
    (fun acc kv =>
      if startsWithCOMM kv.1 && decide (descOf kv.2 = "Songs-DB_Custom1") then
        some (textOf kv.2)
      else acc)
    none tags

/-- Dictionary deletion `del audio[key]` of one key.  On an association
list with unique keys this is filtering that key out. -/
def delKey (tags : TagSet) (k : String) : TagSet :=
  List.filter (fun kv => kv.1 ≠ k) tags

/-- The removal loop `for key in to_remove: del audio[key]`
(lines 82-83). -/
def applyRemovals (tags : TagSet) (ks : List String) : TagSet :=
  ks.foldl delKey tags

/-- The observable outcome of one `fix_comment_fields` call: the tag set
the call leaves behind (saved to disk in apply mode), the `to_remove`
list it reports, whether `audio.save()` ran, and whether the
"No problematic comment fields found" no-op message was printed. -/
structure FixResult where
  kept : TagSet
  to_remove : List String
  saved : Bool
  noChanges : Bool
deriving DecidableEq, Repr

/-- The function `fix_comment_fields(filepath, dry_run)` (lines 15-110), as a function
of the loaded tag set: build `to_remove`; if it is empty report that no
problematic fields were found and stop; in dry-run mode report what would
be removed without mutating; otherwise delete the marked keys and save. -/
def fix_comment_fields (tags : TagSet) (dry_run : Bool) : FixResult :=
  let tr := toRemove tags
  if tr.isEmpty then
    { kept := tags, to_remove := [], saved := false, noChanges := true }
  else if dry_run then
    { kept := tags, to_remove := tr, saved := false, noChanges := false }
  else
    { kept := applyRemovals tags tr, to_remove := tr, saved := true, noChanges := false }

/-- One run of the script over a file whose on-disk tag set is `disk`:
the new on-disk tag set (changed only when `audio.save()` ran) together
with the call result. -/
def runOnFile (disk : TagSet) (dry_run : Bool) : TagSet × FixResult :=
  let r := fix_comment_fields disk dry_run
  ((if r.saved then r.kept else disk), r)

/-- The per-frame state of the pre-check loop of `batch_fix`
(lines 126-141): a COMM frame counter, whether a `Songs-DB_Custom1`
frame was seen, and whether a problematic frame was seen. -/
structure ScanState where
  comm_count : Nat
  has_custom1 : Bool
  has_problem : Bool
deriving DecidableEq, Repr

/-- The body of the pre-check loop of `batch_fix` (lines 131-141) for one
entry of the tag set. -/
def scanStep (st : ScanState) (kv : String × Frame) : ScanState :=
  if startsWithCOMM kv.1 then
    let st1 : ScanState :=
      { st with comm_count := st.comm_count + 1 }
    if descOf kv.2 = "Songs-DB_Custom1" then
      { st1 with has_custom1 := true }
    else if (descOf kv.2 = "ID3v1 Comment" ∧ langOf kv.2 = "eng") ∨
            (descOf kv.2 = "" ∧ langOf kv.2 = "XXX") then
      { st1 with has_problem := true }
    else
      st1
  else
    st

/-- The whole pre-check loop of `batch_fix` over one file, started from
`comm_count = 0`, `has_custom1 = False`, `has_problem = False`. -/
def scanFile (tags : TagSet) : ScanState :=
  tags.foldl scanStep { comm_count := 0, has_custom1 := false, has_problem := false }

/-- The `has_problem` flag `batch_fix` computes for one loadable file. -/
def hasProblem (tags : TagSet) : Bool :=
  (scanFile tags).has_problem

/-- A file in a directory listing as `batch_fix` sees it: either its tag
set loads (`ID3(filepath)` succeeds) or loading raises, carrying some
diagnostic message. -/
abbrev LoadResult : Type := Except String TagSet

/-- The body of the file loop of `batch_fix` (lines 123-149): a file whose
load raises is skipped (`except: continue`); a loadable file is scanned,
and when `has_problem` holds, `fix_comment_fields` is invoked on it and
`fixed_count` is incremented.  The accumulator carries `fixed_count`
together with the results of the `fix_comment_fields` calls made so far. -/
def batchStep (dry_run : Bool) (acc : Nat × List FixResult) (file : LoadResult) :
    Nat × List FixResult :=
  match file with
  | Except.error _ => acc
  | Except.ok tags =>
    if hasProblem tags then
      (acc.1 + 1, acc.2 ++ [fix_comment_fields tags dry_run])
    else
      acc

/-- The function `batch_fix(directory, dry_run)` (lines 112-153), as a function of the
list of load results of the discovered files: the final `fixed_count`
printed in the summary line, together with the per-file
`fix_comment_fields` results. -/
def batch_fix (files : List LoadResult) (dry_run : Bool) : Nat × List FixResult :=
  files.foldl (batchStep dry_run) (0, [])

/-- What the `__main__` block decides to do from `sys.argv`
(lines 155-180): print usage and exit 1, run batch mode, print the
"--batch requires a directory path" error, or run single-file mode. -/
inductive MainAction where
  | usageExit
  | batchRun (directory : String) (dry_run : Bool)
  | batchMissingDir
  | singleRun (filepath : String) (dry_run : Bool)
deriving DecidableEq, Repr

/-- The argument handling of the `__main__` block (lines 155-180):
`sys.argv` is modelled with the program name at index 0.  Fewer than two
entries prints usage and exits with status 1; otherwise `--apply` switches
apply mode on, and `--batch` selects batch mode, which requires a
following argument. -/
def mainAction (argv : List String) : MainAction :=
  if argv.length < 2 then
    MainAction.usageExit
  else
    let dry_run := !argv.contains "--apply"
    if argv.contains "--batch" then
      let batch_idx := argv.indexOf "--batch"
      if batch_idx + 1 < argv.length then
        MainAction.batchRun (argv.getD (batch_idx + 1) "") dry_run
      else
        MainAction.batchMissingDir
    else
      MainAction.singleRun (argv.getD 1 "") dry_run

/-- The process exit status each action ends with: `sys.exit(1)` on the
usage branch; every other branch falls off the end of the script and
exits with status 0 (all runtime errors inside the handlers are caught). -/
def exitCode : MainAction → Nat
  | MainAction.usageExit => 1
  | _ => 0

/-- Written from the wording of the specification, for comparison with
the code: the decision table of section 4.1 of the spec, over a frame
presented as its `description` and `language` sub-fields. -/
def specDecisionTable (description language : String) : CommClass :=
  if description = "Songs-DB_Custom1" then
    CommClass.preserve
  else if description = "ID3v1 Comment" ∧ language = "eng" then
    CommClass.remove
  else if description = "" ∧ language = "XXX" then
    CommClass.remove
  else
    CommClass.preserveOther

/-- Predicate form of the `has_problem` assignment of the batch pre-check
loop (line 140): the frame is a COMM frame that is not the custom comment
and matches one of the two removal conditions. -/
def problemEntry (kv : String × Frame) : Bool :=
  startsWithCOMM kv.1 &&
    (!(decide (descOf kv.2 = "Songs-DB_Custom1")) &&
      decide ((descOf kv.2 = "ID3v1 Comment" ∧ langOf kv.2 = "eng") ∨
              (descOf kv.2 = "" ∧ langOf kv.2 = "XXX")))

/-- The pre-check applied to one directory entry: a file that fails to
load is never a problem file; a loadable one is a problem file when its
scan sets `has_problem`. -/
def loadProblem : LoadResult → Bool
  | Except.error _ => false
  | Except.ok tags => hasProblem tags

/-- The per-file test of the main classifier, lifted to directory entries:
a loadable file whose tag set marks at least one key for removal. -/
def hasRemovalMatch : LoadResult → Bool
  | Except.error _ => false
  | Except.ok tags => !(toRemove tags).isEmpty

/-- The calls to `fix_comment_fields` that a batch run performs, described
through the main classifier: one call per loadable file whose tag set
marks at least one key for removal, in directory order. -/
def specBatchCalls (files : List LoadResult) (dry_run : Bool) : List FixResult :=
  files.filterMap (fun file =>
    match file with
    | Except.error _ => none
    | Except.ok tags =>
      if (toRemove tags).isEmpty then none
      else some (fix_comment_fields tags dry_run))

theorem mem_delKey {tags : TagSet} {a k : String} {f : Frame} :
    (k, f) ∈ delKey tags a ↔ (k, f) ∈ tags ∧ k ≠ a := by
  simp [delKey, List.mem_filter]

theorem mem_applyRemovals {ks : List String} {tags : TagSet} {k : String} {f : Frame} :
    (k, f) ∈ applyRemovals tags ks ↔ (k, f) ∈ tags ∧ k ∉ ks := by
  induction ks generalizing tags with
  | nil => simp [applyRemovals]
  | cons a ks ih =>
    have h : applyRemovals tags (a :: ks) = applyRemovals (delKey tags a) ks := rfl
    rw [h, ih, mem_delKey]
    simp [List.mem_cons]
    tauto

theorem mem_toRemove {tags : TagSet} {k : String} :
    k ∈ toRemove tags ↔ ∃ f, (k, f) ∈ tags ∧ removable (k, f) = true := by
  constructor
  · intro h
    rcases List.mem_map.mp h with ⟨⟨k1, f⟩, hkv, rfl⟩
    rcases List.mem_filter.mp hkv with ⟨hmem, hrem⟩
    exact ⟨f, hmem, hrem⟩
  · intro h
    rcases h with ⟨f, hmem, hrem⟩
    exact List.mem_map.mpr ⟨(k, f), List.mem_filter.mpr ⟨hmem, hrem⟩, rfl⟩

theorem startsWith_of_mem_toRemove {tags : TagSet} {k : String}
    (h : k ∈ toRemove tags) : startsWithCOMM k = true := by
  rcases mem_toRemove.mp h with ⟨f, _, hrem⟩
  exact (Bool.and_eq_true _ _ ▸ hrem).1

theorem key_unique {tags : TagSet} {k : String} {f g : Frame}
    (hnd : (tags.map Prod.fst).Nodup) (hf : (k, f) ∈ tags) (hg : (k, g) ∈ tags) :
    f = g := by
  induction tags with
  | nil => cases hf
  | cons kv rest ih =>
    rw [List.map_cons, List.nodup_cons] at hnd
    rcases hnd with ⟨hhead, hrest⟩
    rcases List.mem_cons.mp hf with hf1 | hf2 <;>
    rcases List.mem_cons.mp hg with hg1 | hg2
    · rw [← hf1] at hg1
      exact (Prod.mk.injEq _ _ _ _ ▸ hg1.symm).2
    · exact absurd (List.mem_map.mpr ⟨(k, g), hg2, rfl⟩) (by rw [← hf1] at hhead; exact hhead)
    · exact absurd (List.mem_map.mpr ⟨(k, f), hf2, rfl⟩) (by rw [← hg1] at hhead; exact hhead)
    · exact ih hrest hf2 hg2

theorem not_mem_toRemove_of_nodup {tags : TagSet} {k : String} {f : Frame}
    (hnd : (tags.map Prod.fst).Nodup) (hmem : (k, f) ∈ tags)
    (hrem : removable (k, f) = false) : k ∉ toRemove tags := by
  intro h
  rcases mem_toRemove.mp h with ⟨g, hgmem, hgrem⟩
  rw [key_unique hnd hmem hgmem] at hrem
  rw [hrem] at hgrem
  cases hgrem

theorem fix_kept_eq (tags : TagSet) (dry_run : Bool) :
    (fix_comment_fields tags dry_run).kept =
      if dry_run then tags else applyRemovals tags (toRemove tags) := by
  unfold fix_comment_fields
  by_cases hemp : (toRemove tags).isEmpty = true
  · have hnil : toRemove tags = [] := List.isEmpty_iff.mp hemp
    rw [if_pos hemp]
    cases dry_run <;> simp [hnil, applyRemovals]
  · rw [if_neg hemp]
    cases dry_run <;> simp

theorem mem_kept_iff {tags : TagSet} {dry_run : Bool} {k : String} {f : Frame}
    (hnd : (tags.map Prod.fst).Nodup) :
    (k, f) ∈ (fix_comment_fields tags dry_run).kept ↔
      (k, f) ∈ tags ∧ (dry_run = true ∨ removable (k, f) = false) := by
  rw [fix_kept_eq]
  cases dry_run with
  | true => simp
  | false =>
    simp only [Bool.false_eq_true, if_false]
    rw [mem_applyRemovals]
    constructor
    · intro h
      rcases h with ⟨hmem, hnot⟩
      refine ⟨hmem, Or.inr ?_⟩
      cases h2 : removable (k, f)
      · rfl
      · exact absurd (mem_toRemove.mpr ⟨f, hmem, h2⟩) hnot
    · intro h
      rcases h with ⟨hmem, hor⟩
      rcases hor with hdr | hrem
      · cases hdr
      · exact ⟨hmem, not_mem_toRemove_of_nodup hnd hmem hrem⟩

theorem scanStep_has_problem (st : ScanState) (kv : String × Frame) :
    (scanStep st kv).has_problem = (st.has_problem || problemEntry kv) := by
  by_cases h1 : startsWithCOMM kv.1 = true
  · by_cases h2 : descOf kv.2 = "Songs-DB_Custom1"
    · simp [scanStep, problemEntry, h1, h2]
    · by_cases h3 : (descOf kv.2 = "ID3v1 Comment" ∧ langOf kv.2 = "eng") ∨
                    (descOf kv.2 = "" ∧ langOf kv.2 = "XXX")
      · simp [scanStep, problemEntry, h1, h2, h3]
      · simp [scanStep, problemEntry, h1, h2, h3]
  · simp [scanStep, problemEntry, h1]

theorem foldl_scanStep_has_problem (l : TagSet) (st : ScanState) :
    (l.foldl scanStep st).has_problem = (st.has_problem || l.any problemEntry) := by
  induction l generalizing st with
  | nil => simp
  | cons kv rest ih =>
    rw [List.foldl_cons, ih, scanStep_has_problem, List.any_cons, Bool.or_assoc]

theorem hasProblem_eq_any (tags : TagSet) :
    hasProblem tags = tags.any problemEntry := by
  rw [hasProblem, scanFile, foldl_scanStep_has_problem]
  rfl

theorem problemEntry_eq_removable (kv : String × Frame) :
    problemEntry kv = removable kv := by
  unfold problemEntry removable classifyComm
  by_cases h2 : descOf kv.2 = "Songs-DB_Custom1" <;>
  by_cases h3 : descOf kv.2 = "ID3v1 Comment" ∧ langOf kv.2 = "eng" <;>
  by_cases h4 : descOf kv.2 = "" ∧ langOf kv.2 = "XXX" <;>
  simp [h2, h3, h4]

theorem hasProblem_iff_toRemove_ne_nil (tags : TagSet) :
    hasProblem tags = true ↔ toRemove tags ≠ [] := by
  rw [hasProblem_eq_any]
  constructor
  · intro h hnil
    rcases List.any_eq_true.mp h with ⟨kv, hmem, hprob⟩
    rw [problemEntry_eq_removable] at hprob
    have : kv.1 ∈ toRemove tags := mem_toRemove.mpr ⟨kv.2, hmem, hprob⟩
    rw [hnil] at this
    cases this
  · intro h
    rcases List.exists_mem_of_ne_nil _ h with ⟨k, hk⟩
    rcases mem_toRemove.mp hk with ⟨f, hmem, hrem⟩
    exact List.any_eq_true.mpr ⟨(k, f), hmem, by rw [problemEntry_eq_removable]; exact hrem⟩

theorem toRemove_fix_kept (tags : TagSet) :
    toRemove ((fix_comment_fields tags false).kept) = [] := by
  rw [fix_kept_eq]
  simp only [Bool.false_eq_true, if_false]
  rw [toRemove, List.map_eq_nil_iff, List.filter_eq_nil_iff]
  intro kv hmem hrem
  rcases kv with ⟨k, f⟩
  rcases mem_applyRemovals.mp hmem with ⟨hmem2, hnot⟩
  exact hnot (mem_toRemove.mpr ⟨f, hmem2, hrem⟩)

theorem batchStep_fst (dry_run : Bool) (acc : Nat × List FixResult) (file : LoadResult) :
    (batchStep dry_run acc file).1 = acc.1 + (if loadProblem file then 1 else 0) := by
  cases file with
  | error e => simp [batchStep, loadProblem]
  | ok tags =>
    by_cases h : hasProblem tags = true <;> simp [batchStep, loadProblem, h]

theorem batchStep_snd (dry_run : Bool) (acc : Nat × List FixResult) (file : LoadResult) :
    (batchStep dry_run acc file).2 =
      acc.2 ++ (if loadProblem file then [fix_comment_fields (match file with | Except.ok t => t | Except.error _ => []) dry_run] else []) := by
  cases file with
  | error e => simp [batchStep, loadProblem]
  | ok tags =>
    by_cases h : hasProblem tags = true <;> simp [batchStep, loadProblem, h]

theorem foldl_batchStep_fst (dry_run : Bool) (files : List LoadResult) :
    ∀ acc : Nat × List FixResult,
      (files.foldl (batchStep dry_run) acc).1 = acc.1 + files.countP loadProblem := by
  induction files with
  | nil => intro acc; simp
  | cons a l ih =>
    intro acc
    rw [List.foldl_cons, ih, batchStep_fst, List.countP_cons]
    by_cases h : loadProblem a = true
    · simp [h]
      omega
    · simp [h]

theorem batch_fix_fst (files : List LoadResult) (dry_run : Bool) :
    (batch_fix files dry_run).1 = files.countP loadProblem := by
  rw [batch_fix, foldl_batchStep_fst]
  simp

theorem foldl_batchStep_snd (dry_run : Bool) (files : List LoadResult) :
    ∀ acc : Nat × List FixResult,
      (files.foldl (batchStep dry_run) acc).2 = acc.2 ++ specBatchCalls files dry_run := by
  induction files with
  | nil => intro acc; simp [specBatchCalls]
  | cons a l ih =>
    intro acc
    rw [List.foldl_cons, ih]
    cases a with
    | error e =>
      have h1 : batchStep dry_run acc (Except.error e) = acc := rfl
      rw [h1]
      simp [specBatchCalls]
    | ok tags =>
      by_cases h : hasProblem tags = true
      · have hne : toRemove tags ≠ [] := (hasProblem_iff_toRemove_ne_nil tags).mp h
        have hemp : (toRemove tags).isEmpty = false := by
          cases h2 : (toRemove tags).isEmpty
          · rfl
          · exact absurd (List.isEmpty_iff.mp h2) hne
        simp [batchStep, h, specBatchCalls, hemp, List.filterMap_cons, hne]
      · have hb : hasProblem tags = false := by
          cases h2 : hasProblem tags
          · rfl
          · exact absurd h2 h
        have hnil : toRemove tags = [] := by
          by_contra hne
          exact h ((hasProblem_iff_toRemove_ne_nil tags).mpr hne)
        simp [batchStep, hb, specBatchCalls, hnil]

theorem batch_fix_snd (files : List LoadResult) (dry_run : Bool) :
    (batch_fix files dry_run).2 = specBatchCalls files dry_run := by
  rw [batch_fix, foldl_batchStep_snd]
  rfl

theorem fix_saved_eq (tags : TagSet) (dry_run : Bool) :
    (fix_comment_fields tags dry_run).saved = (!dry_run && !(toRemove tags).isEmpty) := by
  unfold fix_comment_fields
  by_cases hemp : (toRemove tags).isEmpty = true
  · rw [if_pos hemp]
    simp [hemp]
  · have hemp2 : (toRemove tags).isEmpty = false := by
      cases h : (toRemove tags).isEmpty
      · rfl
      · exact absurd h hemp
    rw [if_neg hemp]
    cases dry_run <;> simp [hemp2]

theorem fix_to_remove_eq (tags : TagSet) (dry_run : Bool) :
    (fix_comment_fields tags dry_run).to_remove = toRemove tags := by
  unfold fix_comment_fields
  by_cases hemp : (toRemove tags).isEmpty = true
  · rw [if_pos hemp]
    exact (List.isEmpty_iff.mp hemp).symm
  · rw [if_neg hemp]
    cases dry_run <;> rfl

theorem fix_noChanges_eq (tags : TagSet) (dry_run : Bool) :
    (fix_comment_fields tags dry_run).noChanges = (toRemove tags).isEmpty := by
  unfold fix_comment_fields
  by_cases hemp : (toRemove tags).isEmpty = true
  · rw [if_pos hemp, hemp]
  · have hemp2 : (toRemove tags).isEmpty = false := by
      cases h : (toRemove tags).isEmpty
      · rfl
      · exact absurd h hemp
    rw [if_neg hemp, hemp2]
    cases dry_run <;> rfl

theorem loadProblem_eq_hasRemovalMatch (file : LoadResult) :
    loadProblem file = hasRemovalMatch file := by
  cases file with
  | error e => rfl
  | ok tags =>
    show hasProblem tags = !(toRemove tags).isEmpty
    by_cases h : toRemove tags = []
    · have hp : hasProblem tags = false := by
        cases h2 : hasProblem tags
        · rfl
        · exact absurd h ((hasProblem_iff_toRemove_ne_nil tags).mp h2)
      rw [hp, h]
      rfl
    · have hp : hasProblem tags = true := (hasProblem_iff_toRemove_ne_nil tags).mpr h
      have hemp : (toRemove tags).isEmpty = false := by
        cases h2 : (toRemove tags).isEmpty
        · rfl
        · exact absurd (List.isEmpty_iff.mp h2) h
      rw [hp, hemp]
      rfl

/-- The tag set of the worked example of section 8 of the spec: an
empty-description English comment, a mirrored ID3v1 comment, and the
custom `Songs-DB_Custom1` comment. -/
def emptyEngFrame : Frame :=
  { desc := some "", lang := some "eng", text := some ["dup"] }

/-- The mirrored legacy comment frame of the worked example. -/
def id3v1Frame : Frame :=
  { desc := some "ID3v1 Comment", lang := some "eng", text := some ["legacy"] }

/-- The canonical custom comment frame of the worked example; its
language is the undetermined sentinel XXX. -/
def custom1Frame : Frame :=
  { desc := some "Songs-DB_Custom1", lang := some "XXX", text := some ["keep me"] }

/-- The keyed entry of the empty-description English comment. -/
def commEmptyEng : String × Frame := ("COMM::eng", emptyEngFrame)

/-- The keyed entry of the mirrored ID3v1 comment. -/
def commId3v1 : String × Frame := ("COMM:ID3v1 Comment:eng", id3v1Frame)

/-- The keyed entry of the custom comment. -/
def commCustom1 : String × Frame := ("COMM:Songs-DB_Custom1:XXX", custom1Frame)

/-- The worked example tag set of the spec scenario. -/
def exampleTags7 : TagSet := [commEmptyEng, commId3v1, commCustom1]

/-- A title frame under a non-COMM key. -/
def titleFrame : Frame :=
  { desc := none, lang := none, text := some ["My Title"] }

/-- A COMM frame with an unrecognized description, classified
preserve-other. -/
def mixNotesFrame : Frame :=
  { desc := some "MixNotes", lang := some "eng", text := some ["warm up"] }

/-- A tag set in which no COMM frame matches a removal rule. -/
def cleanTags : TagSet := [("TIT2", titleFrame), ("COMM:MixNotes:eng", mixNotesFrame)]

/-- An empty-description undetermined-language comment frame, matching
the second removal rule. -/
def emptyXXXFrame : Frame :=
  { desc := some "", lang := some "XXX", text := some ["junk"] }

/-- A tag set mixing a non-COMM frame with a removable COMM frame. -/
def mixedTags : TagSet := [("TIT2", titleFrame), ("COMM::XXX", emptyXXXFrame)]

/-- C1: every COMM frame is assigned exactly the class of the spec
decision table: `Songs-DB_Custom1` frames are preserved; otherwise
`ID3v1 Comment`/`eng` frames are removed; otherwise empty-description
`XXX`-language frames are removed; every other COMM frame is classified
preserve-other.  Moreover the keys marked for removal by
`fix_comment_fields` are exactly the COMM keys of remove-classified
frames. -/
theorem C1_decision_table :
    (∀ f : Frame, classifyComm f = specDecisionTable (descOf f) (langOf f)) ∧
    (∀ (tags : TagSet) (k : String),
      k ∈ toRemove tags ↔
        ∃ f, (k, f) ∈ tags ∧ startsWithCOMM k = true ∧
          classifyComm f = CommClass.remove) := by
  constructor
  · intro f
    rfl
  · intro tags k
    rw [mem_toRemove]
    constructor
    · rintro ⟨f, hmem, hrem⟩
      rw [removable, Bool.and_eq_true] at hrem
      exact ⟨f, hmem, hrem.1, of_decide_eq_true hrem.2⟩
    · rintro ⟨f, hmem, hsw, hcl⟩
      refine ⟨f, hmem, ?_⟩
      rw [removable, Bool.and_eq_true]
      exact ⟨hsw, decide_eq_true hcl⟩

/-- C2: a frame whose description is `Songs-DB_Custom1` is never removed
or modified by the cleanup: in both dry-run and apply modes it is present,
unchanged, in the resulting tag set, whatever the other frames are and
whatever its language is. -/
theorem C2_custom1_never_removed :
    ∀ (tags : TagSet) (dry_run : Bool) (k : String) (f : Frame),
      (tags.map Prod.fst).Nodup → (k, f) ∈ tags →
      descOf f = "Songs-DB_Custom1" →
      (k, f) ∈ (fix_comment_fields tags dry_run).kept := by
  intro tags dry_run k f hnd hmem hdesc
  rw [mem_kept_iff hnd]
  refine ⟨hmem, Or.inr ?_⟩
  have hcl : classifyComm f = CommClass.preserve := by
    rw [classifyComm, if_pos hdesc]
  simp [removable, hcl]

/-- Witness for C2: in the worked example tag set, run in apply mode, the
`Songs-DB_Custom1` frame (whose language is XXX) survives unchanged. -/
theorem C2_witness :
    commCustom1 ∈ (fix_comment_fields exampleTags7 false).kept :=
  C2_custom1_never_removed exampleTags7 false
    "COMM:Songs-DB_Custom1:XXX" custom1Frame
    (by decide) (by decide) (by decide)

/-- C3: a dry run performs no mutation: the resulting tag set is the
input tag set, no save happens, and the on-disk tag set is unchanged;
the run still reports what it would remove. -/
theorem C3_dry_run_pure :
    ∀ disk : TagSet,
      (fix_comment_fields disk true).kept = disk ∧
      (fix_comment_fields disk true).saved = false ∧
      (runOnFile disk true).1 = disk ∧
      (fix_comment_fields disk true).to_remove = toRemove disk := by
  intro disk
  have hk : (fix_comment_fields disk true).kept = disk := by
    rw [fix_kept_eq]
    rfl
  have hs : (fix_comment_fields disk true).saved = false := by
    rw [fix_saved_eq]
    rfl
  refine ⟨hk, hs, ?_, fix_to_remove_eq disk true⟩
  show (if (fix_comment_fields disk true).saved = true then
          (fix_comment_fields disk true).kept
        else disk) = disk
  rw [hs]
  rfl

/-- C4: the cleanup is idempotent: applying it twice yields the same
final tag set as applying it once, and the second run marks no key for
removal. -/
theorem C4_idempotent :
    ∀ tags : TagSet,
      (fix_comment_fields (fix_comment_fields tags false).kept false).kept =
        (fix_comment_fields tags false).kept ∧
      (fix_comment_fields (fix_comment_fields tags false).kept false).to_remove = [] := by
  intro tags
  have h := toRemove_fix_kept tags
  constructor
  · rw [fix_kept_eq ((fix_comment_fields tags false).kept) false, h]
    rfl
  · rw [fix_to_remove_eq, h]

/-- C5: when no COMM frame of the tag set matches a removal rule, the
operation is a no-op in both modes: the tag set is untouched, nothing is
marked for removal, no save is attempted, and the no-changes-needed
message is reported. -/
theorem C5_noop_when_clean :
    ∀ (tags : TagSet) (dry_run : Bool),
      (∀ kv ∈ tags, startsWithCOMM kv.1 = true → classifyComm kv.2 ≠ CommClass.remove) →
      fix_comment_fields tags dry_run =
        { kept := tags, to_remove := [], saved := false, noChanges := true } := by
  intro tags dry_run h
  have hnil : toRemove tags = [] := by
    rw [toRemove, List.map_eq_nil_iff, List.filter_eq_nil_iff]
    intro kv hmem hrem
    rw [removable, Bool.and_eq_true] at hrem
    exact h kv hmem hrem.1 (of_decide_eq_true hrem.2)
  unfold fix_comment_fields
  rw [hnil]
  rfl

/-- Witness for C5: a tag set holding a title frame and a preserve-other
COMM frame is left untouched in apply mode, with the no-changes report. -/
theorem C5_witness :
    fix_comment_fields cleanTags false =
      { kept := cleanTags, to_remove := [], saved := false, noChanges := true } :=
  C5_noop_when_clean cleanTags false (by decide)

/-- C6 counterexample: for a directory of three files of which the middle
one fails to load and the two loadable ones are clean, the only count the
batch summary reports is the number of files needing fixes, here 0; it is
not the count of successfully processed files (2), and no skipped-file
count exists in the summary. -/
theorem C6_counterexample :
    (batch_fix [Except.ok [], Except.error "corrupt", Except.ok []] true).1 = 0 ∧
    (batch_fix [Except.ok [], Except.error "corrupt", Except.ok []] true).1 ≠ 2 := by
  decide

/-- C6 as amended: a failure loading one file does not abort the batch:
the error is caught and the file is skipped, and the rest of the
directory is processed exactly as if the failing file were absent; the
summary only counts files needing fixes and keeps no separate tally of
failures. -/
theorem C6_load_failure_skipped :
    ∀ (pre post : List LoadResult) (msg : String) (dry_run : Bool),
      batch_fix (pre ++ Except.error msg :: post) dry_run =
        batch_fix (pre ++ post) dry_run := by
  intro pre post msg dry_run
  unfold batch_fix
  rw [List.foldl_append, List.foldl_append, List.foldl_cons]
  rfl

/-- C7 counterexample: in the worked example tag set, apply mode does not
remove the `COMM::eng` frame: it stays in the resulting tag set, so the
result is not the singleton custom-comment tag set the claim states. -/
theorem C7_counterexample :
    commEmptyEng ∈ (fix_comment_fields exampleTags7 false).kept ∧
    (fix_comment_fields exampleTags7 false).kept ≠ [commCustom1] := by
  decide

/-- C7 as amended: in the worked example tag set, apply mode removes
exactly the `COMM:ID3v1 Comment:eng` frame; the `COMM::eng` frame
(empty description but language `eng`, not `XXX`) matches no removal rule,
is classified preserve-other and remains together with the
`Songs-DB_Custom1` frame. -/
theorem C7_apply_scenario :
    (fix_comment_fields exampleTags7 false).kept = [commEmptyEng, commCustom1] ∧
    (fix_comment_fields exampleTags7 false).to_remove = ["COMM:ID3v1 Comment:eng"] ∧
    classifyComm emptyEngFrame = CommClass.preserveOther := by
  decide

/-- C8 counterexample: invoking the script as `fix_comments.py --batch`
with no directory path reaches the error-report branch and the process
ends with exit status 0, not the non-zero status the claim states. -/
theorem C8_counterexample :
    mainAction ["fix_comments.py", "--batch"] = MainAction.batchMissingDir ∧
    exitCode (mainAction ["fix_comments.py", "--batch"]) = 0 ∧
    exitCode (mainAction ["fix_comments.py", "--batch"]) ≠ 1 := by
  decide

/-- C8 as amended: a missing positional argument (fewer than two argv
entries) prints usage and exits with status 1; every other invocation,
including `--batch` without a following directory path, which only prints
an error message, ends with exit status 0. -/
theorem C8_exit_status :
    ∀ argv : List String,
      (argv.length < 2 →
        mainAction argv = MainAction.usageExit ∧ exitCode (mainAction argv) = 1) ∧
      (¬argv.length < 2 → exitCode (mainAction argv) = 0) := by
  intro argv
  constructor
  · intro h
    constructor
    · rw [mainAction, if_pos h]
    · rw [mainAction, if_pos h]
      rfl
  · intro h
    by_cases hb : "--batch" ∈ argv
    · by_cases hi : argv.indexOf "--batch" + 1 < argv.length
      · simp [mainAction, h, hb, hi, exitCode]
      · simp [mainAction, h, hb, hi, exitCode]
    · simp [mainAction, h, hb, exitCode]

/-- Witness for C8: with only the program name, usage is printed and the
exit status is 1; with a file argument, or with a dangling batch flag,
the exit status is 0. -/
theorem C8_witness :
    mainAction ["fix_comments.py"] = MainAction.usageExit ∧
    exitCode (mainAction ["fix_comments.py"]) = 1 ∧
    exitCode (mainAction ["fix_comments.py", "song.mp3"]) = 0 := by
  refine ⟨((C8_exit_status ["fix_comments.py"]).1 (by decide)).1,
          ((C8_exit_status ["fix_comments.py"]).1 (by decide)).2,
          (C8_exit_status ["fix_comments.py", "song.mp3"]).2 (by decide)⟩

/-- C9: frames whose keys are not of COMM type are never deleted or
altered: every such entry of the input tag set is present, unchanged, in
the resulting tag set, in both modes. -/
theorem C9_non_comm_untouched :
    ∀ (tags : TagSet) (dry_run : Bool) (k : String) (f : Frame),
      (k, f) ∈ tags → startsWithCOMM k = false →
      (k, f) ∈ (fix_comment_fields tags dry_run).kept := by
  intro tags dry_run k f hmem hsw
  rw [fix_kept_eq]
  cases dry_run with
  | true => simpa using hmem
  | false =>
    simp only [Bool.false_eq_true, if_false]
    rw [mem_applyRemovals]
    refine ⟨hmem, fun hin => ?_⟩
    rw [startsWith_of_mem_toRemove hin] at hsw
    cases hsw

/-- Witness for C9: a TIT2 title frame survives an apply-mode run that
removes a problematic COMM frame from the same tag set. -/
theorem C9_witness :
    ("TIT2", titleFrame) ∈ (fix_comment_fields mixedTags false).kept :=
  C9_non_comm_untouched mixedTags false "TIT2" titleFrame (by decide) (by decide)

/-- C10: the pre-check of `batch_fix` is equivalent to the classifier's
removal test: a loadable file trips `has_problem` exactly when its tag
set marks at least one key for removal; consequently a batch run calls
`fix_comment_fields` exactly on those files, its summary count equals the
number of such files, and the count is the same in dry-run and apply
modes. -/
theorem C10_batch_refines_classifier :
    (∀ tags : TagSet, hasProblem tags = true ↔ toRemove tags ≠ []) ∧
    (∀ (files : List LoadResult) (dry_run other : Bool),
      (batch_fix files dry_run).1 = (files.filter hasRemovalMatch).length ∧
      (batch_fix files dry_run).2 = specBatchCalls files dry_run ∧
      (batch_fix files dry_run).1 = (batch_fix files other).1) := by
  constructor
  · exact hasProblem_iff_toRemove_ne_nil
  · intro files dry_run other
    refine ⟨?_, batch_fix_snd files dry_run, ?_⟩
    · rw [batch_fix_fst, List.countP_eq_length_filter]
      congr 1
      exact List.filter_congr fun file _ => loadProblem_eq_hasRemovalMatch file
    · rw [batch_fix_fst, batch_fix_fst]

end FixComments
